import Mathlib

/-!
Shallow embedding of `src/singleplatform.py` (a Python 3 client for the
SinglePlatform REST API) together with the primitives of the Python standard
library it calls: SHA-1 (`hashlib.sha1`), HMAC (`hmac.new(...).digest()`),
base64 (`base64.b64encode`), UTF-8 (`str.encode`) and
`urllib.parse.urlencode` / `quote_plus`.  Bytes are modelled as `List Nat`
with every element below 256; machine words are `Nat` reduced modulo `2 ^ 32`
where the algorithm wraps.  The SHA-1, HMAC, base64, UTF-8 and urlencode
definitions below were validated byte-for-byte against CPython
(`hashlib` / `hmac` / `base64` / `urllib.parse`) on the RFC test vectors and
on padding edge cases (empty input, 55/65-byte inputs, keys longer than one
block); one such vector is kept as a theorem at the end of the development.
-/

namespace SinglePlatform

/-- Truncate to a 32-bit word, as Python `& 0xffffffff` on unbounded ints. -/
def w32 (x : Nat) : Nat := x % 4294967296

/-- Rotate a 32-bit word left by `n` bits. -/
def rotl (n x : Nat) : Nat := ((x <<< n) ||| (x >>> (32 - n))) &&& 4294967295

/-- Big-endian 4-byte encoding of a 32-bit word. -/
def toBytes4 (x : Nat) : List Nat :=
  [(x >>> 24) &&& 255, (x >>> 16) &&& 255, (x >>> 8) &&& 255, x &&& 255]

/-- Big-endian 8-byte encoding of a 64-bit value. -/
def toBytes8 (x : Nat) : List Nat := toBytes4 (x >>> 32) ++ toBytes4 x

/-- UTF-8 encoding of one code point, as in CPython `str.encode()`. -/
def utf8Char (c : Char) : List Nat :=
  let n := c.toNat
  if n < 128 then [n]
  else if n < 2048 then [192 + n / 64, 128 + n % 64]
  else if n < 65536 then [224 + n / 4096, 128 + n / 64 % 64, 128 + n % 64]
  else [240 + n / 262144, 128 + n / 4096 % 64, 128 + n / 64 % 64, 128 + n % 64]

/-- UTF-8 encoding of a string: Python `s.encode()`. -/
def strBytes (s : String) : List Nat := s.data.flatMap utf8Char

/-- SHA-1 padding: append `0x80`, zeros, and the 64-bit big-endian bit length,
so the total length is a multiple of 64 bytes. -/
def sha1pad (msg : List Nat) : List Nat :=
  let z := (64 - (msg.length + 9) % 64) % 64
  msg ++ 128 :: (List.replicate z 0 ++ toBytes8 (msg.length * 8))

/-- Group a byte list into big-endian 32-bit words (leftover bytes dropped;
inputs are always multiples of 4). -/
def bytesToWords : List Nat → List Nat
  | b0 :: b1 :: b2 :: b3 :: rest =>
      (((b0 * 256 + b1) * 256 + b2) * 256 + b3) :: bytesToWords rest
  | _ => []

/-- Split a byte list into 64-byte chunks; the fuel argument bounds the number
of chunks and is always at least the list length. -/
def chunksAux : Nat → List Nat → List (List Nat)
  | 0, _ => []
  | _, [] => []
  | n + 1, a :: rest => ((a :: rest).take 64) :: chunksAux n (rest.drop 63)

/-- Split a byte list into 64-byte chunks. -/
def chunks64 (l : List Nat) : List (List Nat) := chunksAux l.length l

/-- SHA-1 message schedule: extend 16 words to 80. -/
def sched (w : List Nat) : List Nat :=
  (List.range 64).foldl
    (fun w i =>
      w ++ [rotl 1 ((((w.getD (i + 13) 0) ^^^ (w.getD (i + 8) 0)) ^^^ (w.getD (i + 2) 0)) ^^^
        (w.getD i 0))]) w

/-- The five-word SHA-1 state. -/
abbrev S5 := Nat × Nat × Nat × Nat × Nat

/-- SHA-1 round function, varying with the round index. -/
def sha1F (i b c d : Nat) : Nat :=
  if i < 20 then (b &&& c) ||| ((b ^^^ 4294967295) &&& d)
  else if i < 40 then (b ^^^ c) ^^^ d
  else if i < 60 then ((b &&& c) ||| (b &&& d)) ||| (c &&& d)
  else (b ^^^ c) ^^^ d

/-- SHA-1 round constants. -/
def sha1K (i : Nat) : Nat :=
  if i < 20 then 1518500249 else if i < 40 then 1859775393
  else if i < 60 then 2400959708 else 3395469782

/-- One SHA-1 round. -/
def sha1Round (w : List Nat) (st : S5) (i : Nat) : S5 :=
  match st with
  | (a, b, c, d, e) =>
      (w32 (rotl 5 a + sha1F i b c d + e + sha1K i + w.getD i 0), a, rotl 30 b, c, d)

/-- Process one 64-byte chunk. -/
def processChunk (h : S5) (chunk : List Nat) : S5 :=
  let w := sched (bytesToWords chunk)
  match h, (List.range 80).foldl (sha1Round w) h with
  | (h0, h1, h2, h3, h4), (a, b, c, d, e) =>
      (w32 (h0 + a), w32 (h1 + b), w32 (h2 + c), w32 (h3 + d), w32 (h4 + e))

/-- SHA-1 of a byte list, as `hashlib.sha1(msg).digest()`: a 20-byte digest. -/
def sha1 (msg : List Nat) : List Nat :=
  match (chunks64 (sha1pad msg)).foldl processChunk
      (1732584193, 4023233417, 2562383102, 271733878, 3285377520) with
  | (a, b, c, d, e) =>
      toBytes4 a ++ (toBytes4 b ++ (toBytes4 c ++ (toBytes4 d ++ toBytes4 e)))

/-- HMAC-SHA1, as `hmac.new(key, msg, hashlib.sha1).digest()` (RFC 2104 with a
64-byte block: long keys are hashed, short keys zero-padded). -/
def hmacSha1 (key msg : List Nat) : List Nat :=
  let k0 := if 64 < key.length then sha1 key else key
  let k := k0 ++ List.replicate (64 - k0.length) 0
  sha1 ((k.map (fun b => b ^^^ 92)) ++ sha1 ((k.map (fun b => b ^^^ 54)) ++ msg))

/-- The base64 alphabet as byte values. -/
def b64Alphabet : List Nat :=
  "ABCDEFGHIJKLMNOPQRSTUVWXYZabcdefghijklmnopqrstuvwxyz0123456789+/".data.map Char.toNat

/-- Byte value of the base64 character for a 6-bit group. -/
def b64c (n : Nat) : Nat := b64Alphabet.getD n 0

/-- Standard base64 encoding of bytes to bytes, as `base64.b64encode`. -/
def b64encode : List Nat → List Nat
  | b0 :: b1 :: b2 :: rest =>
      b64c (b0 / 4) :: b64c (b0 % 4 * 16 + b1 / 16) ::
        b64c (b1 % 16 * 4 + b2 / 64) :: b64c (b2 % 64) :: b64encode rest
  | [b0, b1] => [b64c (b0 / 4), b64c (b0 % 4 * 16 + b1 / 16), b64c (b1 % 16 * 4), 61]
  | [b0] => [b64c (b0 / 4), b64c (b0 % 4 * 16), 61, 61]
  | [] => []

/-! ### Python values and `urllib.parse.urlencode`

The dictionaries the client builds map string keys to strings, ints, or (for
the signature) bytes.  Python dicts preserve insertion order and assignment to
an existing key overwrites it in place, so a dict is modelled as an ordered
association list with unique keys, and assignment as `setItem`. -/

/-- A Python value appearing in the query-parameter dicts of the client. -/
inductive PyVal where
  | str (s : String)
  | bytes (b : List Nat)
  | int (n : Int)
deriving DecidableEq

/-- Lowercase hex digits of a byte (as in Python `bytes` repr `\xHH`). -/
def hexLower (b : Nat) : List Char :=
  let dig (n : Nat) : Char := Char.ofNat (if n < 10 then 48 + n else 87 + n)
  [dig (b / 16), dig (b % 16)]

/-- Uppercase hex digits of a byte (as in percent-encoding `%HH`). -/
def hexUpper (b : Nat) : List Char :=
  let dig (n : Nat) : Char := Char.ofNat (if n < 10 then 48 + n else 55 + n)
  [dig (b / 16), dig (b % 16)]

/-- Python `repr` (= `str`) of a `bytes` object: `b` followed by a quoted,
escaped rendering.  Single quotes are used unless the bytes contain a single
quote and no double quote; the quote character, backslash, tab, newline and
carriage return are backslash-escaped and other non-printable bytes become
`\xHH`.  (Byte 39 is the single quote, 34 the double quote, 92 the
backslash.) -/
def bytesRepr (bs : List Nat) : String :=
  let q : Nat := if bs.contains 39 && !(bs.contains 34) then 34 else 39
  let esc (b : Nat) : List Char :=
    if b == 92 then [Char.ofNat 92, Char.ofNat 92]
    else if b == q then [Char.ofNat 92, Char.ofNat q]
    else if b == 9 then [Char.ofNat 92, Char.ofNat 116]
    else if b == 10 then [Char.ofNat 92, Char.ofNat 110]
    else if b == 13 then [Char.ofNat 92, Char.ofNat 114]
    else if b < 32 || 127 ≤ b then Char.ofNat 92 :: Char.ofNat 120 :: hexLower b
    else [Char.ofNat b]
  String.mk (Char.ofNat 98 :: Char.ofNat q :: (bs.flatMap esc ++ [Char.ofNat q]))

/-- Python `str()` of a value: identity on strings, decimal rendering of
ints, `repr` of bytes.  (`urlencode` applies this to non-bytes values only:
it percent-encodes bytes values directly.) -/
def pyStr : PyVal → String
  | .str s => s
  | .bytes b => bytesRepr b
  | .int n => toString n

/-- Bytes that `urllib.parse.quote` never escapes: ASCII letters, digits and
`_ . - ~` (the default `safe` of `urlencode` is the empty string, so nothing
else is safe). -/
def quoteSafe (b : Nat) : Bool :=
  (48 ≤ b && b ≤ 57) || (65 ≤ b && b ≤ 90) || (97 ≤ b && b ≤ 122) ||
    b == 45 || b == 46 || b == 95 || b == 126

/-- `urllib.parse.quote_plus` on bytes with an empty safe string: spaces become `+`, safe
bytes stand, everything else becomes `%HH` with uppercase hex. -/
def quotePlusBytes (bs : List Nat) : String :=
  String.mk (bs.flatMap fun b =>
    if b == 32 then [Char.ofNat 43]
    else if quoteSafe b then [Char.ofNat b]
    else Char.ofNat 37 :: hexUpper b)

/-- `urllib.parse.quote_plus` on a string: UTF-8 encode, then quote. -/
def quote_plus (s : String) : String := quotePlusBytes (strBytes s)

/-- One `key=value` pair of `urllib.parse.urlencode`: `bytes` values are
quoted directly (CPython tests `isinstance(v, bytes)`), other values go
through `str()` first. -/
def encodePair (kv : String × PyVal) : String :=
  quote_plus kv.1 ++ "=" ++
    (match kv.2 with
     | .bytes b => quotePlusBytes b
     | v => quote_plus (pyStr v))

/-- `urllib.parse.urlencode` on an (ordered) dict: the encoded pairs joined
with `&`. -/
def urlencode (ps : List (String × PyVal)) : String :=
  String.intercalate "&" (ps.map encodePair)

/-- Python dict assignment `d[k] = v`: overwrite in place if the key exists
(keeping its position), else append. -/
def setItem : List (String × PyVal) → String → PyVal → List (String × PyVal)
  | [], k, v => [(k, v)]
  | (k0, v0) :: rest, k, v =>
      if k0 == k then (k, v) :: rest else (k0, v0) :: setItem rest k v

/-! ### JSON trees

The vendor returns JSON documents; `_recurse_locations` walks dicts whose
`"nodes"` entries hold lists of child dicts.  JSON is modelled as a mutual
inductive (so that all recursion stays structural and kernel-reducible). -/

mutual
/-- A JSON value. -/
inductive Json where
  | null
  | bool (b : Bool)
  | num (n : Int)
  | str (s : String)
  | arr (elems : JsonList)
  | obj (fields : JsonFields)
deriving DecidableEq
/-- A JSON array body. -/
inductive JsonList where
  | nil
  | cons (head : Json) (tail : JsonList)
deriving DecidableEq
/-- A JSON object body (ordered fields, unique keys in real documents). -/
inductive JsonFields where
  | nil
  | cons (key : String) (val : Json) (tail : JsonFields)
deriving DecidableEq
end

mutual
/-- Number of JSON constructors in a value (the termination measure of the
tree walk). -/
def Json.size : Json → Nat
  | .null => 1
  | .bool _ => 1
  | .num _ => 1
  | .str _ => 1
  | .arr xs => 1 + xs.size
  | .obj fs => 1 + fs.size
/-- Total size of the values of a JSON array body. -/
def JsonList.size : JsonList → Nat
  | .nil => 0
  | .cons h t => h.size + t.size
/-- Total size of the values of a JSON object body. -/
def JsonFields.size : JsonFields → Nat
  | .nil => 0
  | .cons _ v t => v.size + t.size
end

/-- A JSON array body as a `List`. -/
def JsonList.toList : JsonList → List Json
  | .nil => []
  | .cons h t => h :: t.toList

/-- A `List` as a JSON array body. -/
def JsonList.ofList : List Json → JsonList
  | [] => .nil
  | h :: t => .cons h (JsonList.ofList t)

/-- A `List` of pairs as a JSON object body. -/
def JsonFields.ofList : List (String × Json) → JsonFields
  | [] => .nil
  | (k, v) :: t => .cons k v (JsonFields.ofList t)

/-- Build a JSON array from a `List` (used only to write down examples). -/
def jarr (xs : List Json) : Json := Json.arr (JsonList.ofList xs)

/-- Build a JSON object from a `List` (used only to write down examples). -/
def jobj (fs : List (String × Json)) : Json := Json.obj (JsonFields.ofList fs)

/-- First value stored under a key in an object body. -/
def JsonFields.lookup : JsonFields → String → Option Json
  | .nil, _ => none
  | .cons k v t, key => if k == key then some v else t.lookup key

/-- Python `d.get(key)`: the value under the key, or `None`.  The code only
ever calls `.get` on dicts; on non-objects the model returns `none`. -/
def Json.get : Json → String → Option Json
  | .obj fs, key => fs.lookup key
  | _, _ => none

/-- The test `parent.get("node_type") == "location"` of line 59: true exactly
when the dict stores the string `"location"` under `"node_type"`. -/
def isLocation (parent : Json) : Bool :=
  match parent.get "node_type" with
  | some (.str s) => s == "location"
  | _ => false

/-- The iteration source `parent.get("nodes", [])` of line 61: the list under
`"nodes"`, or the empty list when the key is absent.  (The claims and all
callers only exercise dicts whose `"nodes"` value, when present, is a list of
dicts.) -/
def childNodes (parent : Json) : List Json :=
  match parent.get "nodes" with
  | some (.arr xs) => xs.toList
  | _ => []

/-- `_recurse_locations` with explicit fuel; the fuel bounds the recursion
depth and is irrelevant (proved below) once it reaches the size of the
value. -/
def recurseAux : Nat → Json → List Json
  | 0, _ => []
  | n + 1, parent =>
      if isLocation parent then [parent]
      else (childNodes parent).flatMap (recurseAux n)

/-- `SinglePlatformLocationAPI._recurse_locations` (lines 56-64): return
`[parent]` when the dict is a location node, else the concatenation of the
recursive results over the children under `"nodes"`. -/
def _recurse_locations (parent : Json) : List Json := recurseAux parent.size parent

/-- All nodes of a `"nodes"`-tree in depth-first preorder, with explicit
fuel. -/
def allNodesAux : Nat → Json → List Json
  | 0, _ => []
  | n + 1, j => j :: (childNodes j).flatMap (allNodesAux n)

/-- All nodes of a `"nodes"`-tree in depth-first preorder (the root
included). -/
def allNodes (j : Json) : List Json := allNodesAux j.size j

/-- Stated from the claim text, for comparison with `_recurse_locations`:
"the list of exactly those nodes of the tree whose `node_type` equals
`location`", collected in depth-first order. -/
def claimedLocations (j : Json) : List Json := (allNodes j).filter isLocation

/-- No location node of the tree has a location node strictly below it. -/
def noNestedLoc (j : Json) : Bool :=
  (allNodes j).all fun m =>
    !(isLocation m) ||
      (childNodes m).all fun c => (allNodes c).all fun x => !(isLocation x)

/-! ### The API class

`SinglePlatformLocationAPI` holds `client_id` and `client_secret`; its
methods build a signed URL, issue one HTTP GET, and handle the response.  The
HTTP exchange is modelled by passing the response in: each method returns the
request it issues together with the outcome computed from the given
response. -/

/-- The `SinglePlatformImageType` enum (lines 27-33). -/
inductive SinglePlatformImageType where
  | interior
  | exterior
  | item
  | logo
  | uncategorized
deriving DecidableEq

/-- The `.value` of an enum member. -/
def SinglePlatformImageType.value : SinglePlatformImageType → String
  | .interior => "interior"
  | .exterior => "exterior"
  | .item => "item"
  | .logo => "logo"
  | .uncategorized => "uncategorized"

/-- `SinglePlatformLocationAPI._HOST` (line 37). -/
def _HOST : String := "https://publishing-api.singleplatform.com"

/-- `SinglePlatformLocationAPI._generate_signature` (lines 43-47):
base64 of the HMAC-SHA1 digest of the UTF-8 uri under the UTF-8 client
secret.  Note the function returns the *bytes* produced by
`base64.b64encode`, despite its `-> str` annotation. -/
def _generate_signature (client_secret uri : String) : List Nat :=
  b64encode (hmacSha1 (strBytes client_secret) (strBytes uri))

/-- `SinglePlatformLocationAPI._generate_url` (lines 49-54): sign
`path?urlencode(params)`, store the signature in the dict under
`"signature"`, and return `_HOST + path + "?" + urlencode(updated params)`.
The Python method mutates `params` in place (and prints the URL); the model
returns the URL together with the updated dict. -/
def _generate_url (client_secret path : String) (params : List (String × PyVal)) :
    String × List (String × PyVal) :=
  let uri := path ++ "?" ++ urlencode params
  let params1 := setItem params "signature" (.bytes (_generate_signature client_secret uri))
  (_HOST ++ path ++ "?" ++ urlencode params1, params1)

/-- Outcome of a method call: a parsed JSON document, or a raised
`ValueError` carrying a message. -/
inductive PyResult (α : Type) where
  | ok (val : α)
  | valueError (msg : String)

/-- A `requests` response: status code, body text, and the parsed JSON body
(what `response.json()` yields). -/
structure Response where
  status_code : Nat
  text : String
  json : Json

/-- `SinglePlatformLocationAPI.summary` (lines 93-108) given the HTTP
response: returns the requested URL and the outcome — the parsed body on
status 200, a `ValueError` carrying the body text otherwise. -/
def summary (client_id client_secret location_id : String) (complete : Bool)
    (r : Response) : String × PyResult Json :=
  let flag := if complete then "all/" else ""
  let path := "/locations/" ++ location_id ++ "/" ++ flag
  let params := [("client", PyVal.str client_id)]
  let url := (_generate_url client_secret path params).1
  (url, if r.status_code == 200 then .ok r.json else .valueError r.text)

/-- `SinglePlatformLocationAPI.menu` (lines 110-126) given the HTTP
response. -/
def menu (client_id client_secret location_id : String) (short : Bool)
    (r : Response) : String × PyResult Json :=
  let path := "/locations/" ++ location_id ++ "/menus/"
  let params := [("client", PyVal.str client_id)]
  let params := if short then setItem params "format" (.str "short") else params
  let url := (_generate_url client_secret path params).1
  (url, if r.status_code == 200 then .ok r.json else .valueError r.text)

/-- `SinglePlatformLocationAPI.photos` (lines 128-153) given the HTTP
response.  `if max_height:` is Python truthiness: `None` and `0` both skip
the parameter. -/
def photos (client_id client_secret location_id : String)
    (max_height max_width : Option Int) (image_type : Option SinglePlatformImageType)
    (r : Response) : String × PyResult Json :=
  let path := "/locations/" ++ location_id ++ "/photos/"
  let params := [("client", PyVal.str client_id)]
  let params := match max_height with
    | some h => if h == 0 then params else setItem params "height" (.int h)
    | none => params
  let params := match max_width with
    | some w => if w == 0 then params else setItem params "width" (.int w)
    | none => params
  let params := match image_type with
    | some t => setItem params "type" (.str t.value)
    | none => params
  let url := (_generate_url client_secret path params).1
  (url, if r.status_code == 200 then .ok r.json else .valueError r.text)

/-- `SinglePlatformLocationAPI.managed_locations` (lines 66-91) given the
parsed JSON body of the HTTP response: returns the requested URL with its
headers, and `_recurse_locations` of the `"root_tier"` value (defaulting to
the empty dict when the key is absent, as `response.json().get("root_tier",
{})` does). -/
def managed_locations (business_id cookie : String) (responseJson : Json) :
    (String × List (String × String)) × List Json :=
  let url := "https://my2.singleplatform.com/hierarchy/list/business/" ++ business_id ++ "/"
  let headers := [("Cookie", cookie)]
  let data := (responseJson.get "root_tier").getD (Json.obj .nil)
  ((url, headers), _recurse_locations data)

/-! ### Well-foundedness of the tree walk

Each recursive call of `_recurse_locations` is on a child taken from the
`"nodes"` list of its argument, and every such child is structurally smaller,
so the fuel `parent.size` suffices and the fuel-free defining equation
holds. -/

theorem Json.size_pos (j : Json) : 0 < j.size := by
  cases j <;> simp [Json.size]

theorem JsonList.size_of_mem : ∀ {c : Json} (xs : JsonList), c ∈ xs.toList →
    c.size ≤ xs.size
  | c, .nil, h => by simp [JsonList.toList] at h
  | c, .cons hd tl, h => by
      simp [JsonList.toList] at h
      rcases h with h | h
      · subst h; simp [JsonList.size]
      · have := JsonList.size_of_mem tl h
        simp [JsonList.size]
        omega

theorem JsonFields.lookup_size : ∀ {v : Json} (fs : JsonFields) {k : String},
    fs.lookup k = some v → v.size ≤ fs.size
  | v, .nil, k, h => by simp [JsonFields.lookup] at h
  | v, .cons key val tl, k, h => by
      simp only [JsonFields.lookup] at h
      by_cases hk : (key == k) = true
      · rw [if_pos hk] at h
        cases h
        simp [JsonFields.size]
      · rw [if_neg hk] at h
        have := JsonFields.lookup_size tl h
        simp [JsonFields.size]
        omega

theorem childNodes_size {c j : Json} (h : c ∈ childNodes j) : c.size < j.size := by
  unfold childNodes at h
  cases hg : j.get "nodes" with
  | none => rw [hg] at h; simp at h
  | some v =>
      rw [hg] at h
      cases v with
      | arr xs =>
          have hm : c ∈ xs.toList := h
          have hc : c.size ≤ xs.size := JsonList.size_of_mem xs hm
          cases j with
          | obj fs =>
              have hg2 : fs.lookup "nodes" = some (Json.arr xs) := hg
              have hv : (Json.arr xs).size ≤ fs.size := JsonFields.lookup_size fs hg2
              simp [Json.size] at hv ⊢
              omega
          | null => simp [Json.get] at hg
          | bool b => simp [Json.get] at hg
          | num n => simp [Json.get] at hg
          | str s => simp [Json.get] at hg
          | arr ys => simp [Json.get] at hg
      | null => simp at h
      | bool b => simp at h
      | num n => simp at h
      | str s => simp at h
      | obj fs => simp at h

theorem recurseAux_fuel :
    ∀ n m : Nat, ∀ j : Json, j.size ≤ n → j.size ≤ m →
      recurseAux n j = recurseAux m j := by
  intro n
  induction n using Nat.strong_induction_on with
  | _ n ih =>
      intro m j hn hm
      have hpos := Json.size_pos j
      cases n with
      | zero => omega
      | succ n0 =>
          cases m with
          | zero => omega
          | succ m0 =>
              simp only [recurseAux]
              by_cases hloc : isLocation j = true
              · simp [hloc]
              · simp only [hloc, if_false]
                refine List.flatMap_congr ?_
                intro c hc
                have hcs := childNodes_size hc
                exact ih n0 (by omega) m0 c (by omega) (by omega)

theorem recurse_locations_eq (j : Json) :
    _recurse_locations j =
      if isLocation j then [j] else (childNodes j).flatMap _recurse_locations := by
  unfold _recurse_locations
  have hpos := Json.size_pos j
  cases hs : j.size with
  | zero => omega
  | succ n0 =>
      simp only [recurseAux]
      by_cases hloc : isLocation j = true
      · simp [hloc]
      · simp only [hloc, if_false]
        refine List.flatMap_congr ?_
        intro c hc
        have hcs := childNodes_size hc
        exact recurseAux_fuel n0 c.size c (by omega) (by omega)

theorem allNodesAux_fuel :
    ∀ n m : Nat, ∀ j : Json, j.size ≤ n → j.size ≤ m →
      allNodesAux n j = allNodesAux m j := by
  intro n
  induction n using Nat.strong_induction_on with
  | _ n ih =>
      intro m j hn hm
      have hpos := Json.size_pos j
      cases n with
      | zero => omega
      | succ n0 =>
          cases m with
          | zero => omega
          | succ m0 =>
              simp only [allNodesAux, List.cons.injEq, true_and]
              refine List.flatMap_congr ?_
              intro c hc
              have hcs := childNodes_size hc
              exact ih n0 (by omega) m0 c (by omega) (by omega)

theorem allNodes_eq (j : Json) :
    allNodes j = j :: (childNodes j).flatMap allNodes := by
  unfold allNodes
  have hpos := Json.size_pos j
  cases hs : j.size with
  | zero => omega
  | succ n0 =>
      simp only [allNodesAux, List.cons.injEq, true_and]
      refine List.flatMap_congr ?_
      intro c hc
      have hcs := childNodes_size hc
      exact allNodesAux_fuel n0 c.size c (by omega) (by omega)

theorem mem_allNodes_self (j : Json) : j ∈ allNodes j := by
  rw [allNodes_eq]; exact List.mem_cons_self _ _

theorem mem_allNodes_trans {x c j : Json} (hc : c ∈ childNodes j)
    (hx : x ∈ allNodes c) : x ∈ allNodes j := by
  rw [allNodes_eq]
  exact List.mem_cons_of_mem _ (List.mem_flatMap.mpr ⟨c, hc, hx⟩)

theorem noNestedLoc_spec {j : Json} (h : noNestedLoc j = true) :
    ∀ m ∈ allNodes j, isLocation m = true →
      ∀ c ∈ childNodes m, ∀ x ∈ allNodes c, isLocation x = false := by
  intro m hm hloc c hc x hx
  unfold noNestedLoc at h
  rw [List.all_eq_true] at h
  have hmm := h m hm
  simp only [hloc, Bool.not_true, Bool.false_or, List.all_eq_true] at hmm
  have := hmm c hc x hx
  simpa using this

theorem noNestedLoc_child {j c : Json} (h : noNestedLoc j = true)
    (hc : c ∈ childNodes j) : noNestedLoc c = true := by
  unfold noNestedLoc at h ⊢
  rw [List.all_eq_true] at h ⊢
  intro m hm
  exact h m (mem_allNodes_trans hc hm)

/-- Everything `_recurse_locations` returns is a node of the tree whose
`node_type` is `location`. -/
theorem recurse_sound (j : Json) :
    ∀ x ∈ _recurse_locations j, x ∈ allNodes j ∧ isLocation x = true := by
  rw [recurse_locations_eq]
  by_cases hloc : isLocation j = true
  · rw [if_pos hloc]
    intro x hx
    rw [List.mem_singleton] at hx
    subst hx
    exact ⟨mem_allNodes_self _, hloc⟩
  · rw [if_neg hloc]
    intro x hx
    rcases List.mem_flatMap.mp hx with ⟨c, hc, hxc⟩
    have hrec := recurse_sound c x hxc
    exact ⟨mem_allNodes_trans hc hrec.1, hrec.2⟩
termination_by j.size
decreasing_by exact childNodes_size hc

/-- When no location node is nested beneath another, `_recurse_locations`
returns exactly the location nodes of the tree, in depth-first order. -/
theorem recurse_exact (j : Json) (h : noNestedLoc j = true) :
    _recurse_locations j = claimedLocations j := by
  rw [recurse_locations_eq]
  unfold claimedLocations
  rw [allNodes_eq]
  by_cases hloc : isLocation j = true
  · rw [if_pos hloc, List.filter_cons, if_pos hloc]
    have hnil : List.filter isLocation ((childNodes j).flatMap allNodes) = [] := by
      rw [List.filter_eq_nil_iff]
      intro a ha
      rcases List.mem_flatMap.mp ha with ⟨c, hc, hac⟩
      have := noNestedLoc_spec h j (mem_allNodes_self j) hloc c hc a hac
      simp [this]
    rw [hnil]
  · rw [if_neg hloc, List.filter_cons, if_neg hloc, List.filter_flatMap]
    refine List.flatMap_congr ?_
    intro c hc
    exact recurse_exact c (noNestedLoc_child h hc)
termination_by j.size
decreasing_by exact childNodes_size hc

/-! ### Lengths and dict lemmas -/

theorem sha1_length (msg : List Nat) : (sha1 msg).length = 20 := by
  unfold sha1
  set t := (chunks64 (sha1pad msg)).foldl processChunk
    (1732584193, 4023233417, 2562383102, 271733878, 3285377520) with ht
  obtain ⟨a, b, c, d, e⟩ := t
  simp [toBytes4]

theorem hmacSha1_length (key msg : List Nat) : (hmacSha1 key msg).length = 20 :=
  sha1_length _

theorem setItem_lookup : ∀ (ps : List (String × PyVal)) (k : String) (v : PyVal),
    List.lookup k (setItem ps k v) = some v
  | [], k, v => by simp [setItem, List.lookup]
  | (k0, v0) :: rest, k, v => by
      by_cases hk : k0 = k
      · subst hk
        simp [setItem, List.lookup]
      · have h1 : (k0 == k) = false := by simp [hk]
        have h2 : (k == k0) = false := by simp [Ne.symm hk]
        simp only [setItem, h1, Bool.false_eq_true, if_false, List.lookup, h2]
        exact setItem_lookup rest k v

theorem b64encode_length : ∀ bs : List Nat, (b64encode bs).length = (bs.length + 2) / 3 * 4 := by
  intro bs
  induction bs using b64encode.induct with
  | case1 b0 b1 b2 rest ih => simp [b64encode, ih]; omega
  | case2 b0 b1 => simp [b64encode]
  | case3 b0 => simp [b64encode]
  | case4 => simp [b64encode]

set_option maxRecDepth 1000000 in
/-- RFC 2202 test vector, tying the embedded HMAC-SHA1 and base64 to the
real algorithms: HMAC-SHA1 of the quick-brown-fox sentence under the key
`key`, base64-encoded, is the well-known digest. -/
theorem hmac_rfc2202_vector :
    b64encode (hmacSha1 (strBytes "key")
        (strBytes "The quick brown fox jumps over the lazy dog")) =
      strBytes "3nybhbi3iqa8ino29wqQcBydtNk=" := by
  decide

/-! ### The claims -/

/-- C1: `_generate_signature(uri)` is the base64 encoding of the HMAC-SHA1
digest of the uri under the client secret (a 20-byte digest, so a 28-byte
signature), and the message `_generate_url` signs is the path, `?`, and the
urlencoding of the original params, before the signature is added. -/
theorem sp_c1 :
    (∀ client_secret uri : String,
        _generate_signature client_secret uri =
          b64encode (hmacSha1 (strBytes client_secret) (strBytes uri)) ∧
        (hmacSha1 (strBytes client_secret) (strBytes uri)).length = 20 ∧
        (_generate_signature client_secret uri).length = 28) ∧
    (∀ (client_secret path : String) (params : List (String × PyVal)),
        (_generate_url client_secret path params).2 =
          setItem params "signature"
            (PyVal.bytes (_generate_signature client_secret
              (path ++ "?" ++ urlencode params))) ∧
        (_generate_url client_secret path params).1 =
          _HOST ++ path ++ "?" ++ urlencode ((_generate_url client_secret path params).2)) := by
  constructor
  · intro s u
    refine ⟨rfl, hmacSha1_length _ _, ?_⟩
    unfold _generate_signature
    rw [b64encode_length, hmacSha1_length]
  · intro s p ps
    exact ⟨rfl, rfl⟩

/-- C4: every generated URL is the fixed host, then the path, `?`, and the
urlencoding of the params with the signature added; the host constant is the
vendor host, and the updated params carry the signature under the key
`signature`. -/
theorem sp_c4 :
    ∀ (client_secret path : String) (params : List (String × PyVal)),
      (_generate_url client_secret path params).1 =
        _HOST ++ path ++ "?" ++
          urlencode (setItem params "signature"
            (PyVal.bytes (_generate_signature client_secret
              (path ++ "?" ++ urlencode params)))) ∧
      _HOST = "https://publishing-api.singleplatform.com" ∧
      (∃ rest : String, (_generate_url client_secret path params).1 =
        _HOST ++ path ++ "?" ++ rest) ∧
      List.lookup "signature" ((_generate_url client_secret path params).2) =
        some (PyVal.bytes (_generate_signature client_secret
          (path ++ "?" ++ urlencode params))) := by
  intro s p ps
  exact ⟨rfl, rfl, ⟨_, rfl⟩, setItem_lookup _ _ _⟩

/-- C5: the signature is a deterministic function of the client secret and
the uri alone: equal inputs give equal signatures. -/
theorem sp_c5 :
    ∀ s1 u1 s2 u2 : String, s1 = s2 → u1 = u2 →
      _generate_signature s1 u1 = _generate_signature s2 u2 := by
  intro s1 u1 s2 u2 hs hu
  rw [hs, hu]

/-- Witness for C5 at a concrete secret and uri. -/
theorem sp_c5_witness :
    _generate_signature "secret" "/locations/123/?client=myclient" =
      _generate_signature "secret" "/locations/123/?client=myclient" :=
  sp_c5 "secret" "/locations/123/?client=myclient" "secret" "/locations/123/?client=myclient"
    rfl rfl

/-- C2: `summary`, `menu` and `photos` return the parsed JSON body unchanged
on HTTP status 200 and raise a `ValueError` whose message is exactly the
response body text on any other status; each call consumes exactly one
response, with no retry or recovery (the model passes a single response
through a single conditional). -/
theorem sp_c2 :
    ∀ (client_id client_secret location_id : String) (complete short : Bool)
      (max_height max_width : Option Int) (image_type : Option SinglePlatformImageType)
      (r : Response),
      (r.status_code = 200 →
        (summary client_id client_secret location_id complete r).2 = PyResult.ok r.json ∧
        (menu client_id client_secret location_id short r).2 = PyResult.ok r.json ∧
        (photos client_id client_secret location_id max_height max_width image_type r).2 =
          PyResult.ok r.json) ∧
      (r.status_code ≠ 200 →
        (summary client_id client_secret location_id complete r).2 =
          PyResult.valueError r.text ∧
        (menu client_id client_secret location_id short r).2 = PyResult.valueError r.text ∧
        (photos client_id client_secret location_id max_height max_width image_type r).2 =
          PyResult.valueError r.text) := by
  intro ci cs li c s mh mw it r
  constructor
  · intro h200
    have hb : (r.status_code == 200) = true := by simp [h200]
    simp [summary, menu, photos, hb]
  · intro hne
    have hb : (r.status_code == 200) = false := by simp [hne]
    simp [summary, menu, photos, hb]

/-- Witness for C2: a 200 response yields the parsed body, a 404 response
raises a `ValueError` carrying the body text. -/
theorem sp_c2_witness :
    (summary "myclient" "secret" "123" false ⟨200, "body", Json.null⟩).2 =
      PyResult.ok Json.null ∧
    (menu "myclient" "secret" "123" false ⟨404, "not found", Json.null⟩).2 =
      PyResult.valueError "not found" := by
  constructor
  · exact ((sp_c2 "myclient" "secret" "123" false false none none none
      ⟨200, "body", Json.null⟩).1 rfl).1
  · exact ((sp_c2 "myclient" "secret" "123" false false none none none
      ⟨404, "not found", Json.null⟩).2 (by decide)).2.1

/-- C6: `managed_locations` issues a GET to the hierarchy endpoint for the
business id with the `Cookie` header set to the given cookie string, returns
`_recurse_locations` of the `root_tier` field of the response JSON, and
yields the empty list when that field is absent. -/
theorem sp_c6 :
    ∀ (business_id cookie : String) (responseJson : Json),
      (managed_locations business_id cookie responseJson).1.1 =
        "https://my2.singleplatform.com/hierarchy/list/business/" ++ business_id ++ "/" ∧
      (managed_locations business_id cookie responseJson).1.2 = [("Cookie", cookie)] ∧
      (managed_locations business_id cookie responseJson).2 =
        _recurse_locations ((responseJson.get "root_tier").getD (Json.obj .nil)) ∧
      (responseJson.get "root_tier" = none →
        (managed_locations business_id cookie responseJson).2 = []) := by
  intro b c rj
  refine ⟨rfl, rfl, rfl, ?_⟩
  intro hnone
  show _recurse_locations ((rj.get "root_tier").getD (Json.obj .nil)) = []
  rw [hnone]
  rfl

/-- Witness for C6: a response JSON without `root_tier` gives the empty
list. -/
theorem sp_c6_witness :
    (managed_locations "12345" "csrftoken=x; sessionid=y" (Json.obj .nil)).2 = [] :=
  (sp_c6 "12345" "csrftoken=x; sessionid=y" (Json.obj .nil)).2.2.2 rfl

/-- C7: `_recurse_locations` terminates on every finite tree: each recursive
call is on a strict child of its argument (a member of its `nodes` list,
which is structurally smaller), and the total function satisfies the
recursive defining equation of the Python code. -/
theorem sp_c7 :
    (∀ j : Json, ∀ c ∈ childNodes j, c.size < j.size) ∧
    (∀ j : Json, _recurse_locations j =
      if isLocation j then [j] else (childNodes j).flatMap _recurse_locations) :=
  ⟨fun _ _ hc => childNodes_size hc, recurse_locations_eq⟩

/-- Witness for C7: a concrete child of a concrete tree is strictly
smaller. -/
theorem sp_c7_witness :
    Json.null.size < (jobj [("nodes", jarr [Json.null])]).size :=
  sp_c7.1 (jobj [("nodes", jarr [Json.null])]) Json.null (by decide)

/-- Counterexample to C3 as stated: on a tree whose root is a location node
with a location node below it, `_recurse_locations` does not return all
nodes whose `node_type` equals `location` — the nested location node is a
location node of the tree yet is missing from the result. -/
theorem sp_c3_counterexample :
    _recurse_locations (jobj [("node_type", Json.str "location"),
        ("nodes", jarr [jobj [("node_type", Json.str "location"), ("id", Json.num 2)]])]) ≠
      claimedLocations (jobj [("node_type", Json.str "location"),
        ("nodes", jarr [jobj [("node_type", Json.str "location"), ("id", Json.num 2)]])]) ∧
    jobj [("node_type", Json.str "location"), ("id", Json.num 2)] ∈
      claimedLocations (jobj [("node_type", Json.str "location"),
        ("nodes", jarr [jobj [("node_type", Json.str "location"), ("id", Json.num 2)]])]) ∧
    jobj [("node_type", Json.str "location"), ("id", Json.num 2)] ∉
      _recurse_locations (jobj [("node_type", Json.str "location"),
        ("nodes", jarr [jobj [("node_type", Json.str "location"), ("id", Json.num 2)]])]) := by
  refine ⟨?_, ?_, ?_⟩ <;> decide

/-- C3 (amended): `_recurse_locations` performs a depth-first walk over the
`nodes` children that stops at location nodes: every returned node is a node
of the tree whose `node_type` equals `location`; when no location node is
nested beneath another location node the result is exactly the location
nodes of the tree, in depth-first order; and a dict with no `node_type` and
no `nodes` yields the empty list. -/
theorem sp_c3 :
    (∀ j : Json, ∀ x ∈ _recurse_locations j, x ∈ allNodes j ∧ isLocation x = true) ∧
    (∀ j : Json, noNestedLoc j = true → _recurse_locations j = claimedLocations j) ∧
    (∀ j : Json, j.get "node_type" = none → j.get "nodes" = none →
      _recurse_locations j = []) := by
  refine ⟨recurse_sound, recurse_exact, ?_⟩
  intro j h1 h2
  rw [recurse_locations_eq]
  have hloc : isLocation j = false := by simp [isLocation, h1]
  have hch : childNodes j = [] := by simp [childNodes, h2]
  simp [hloc, hch]

/-- Witness for C3: on a concrete two-location tree with no nesting the walk
returns exactly the location nodes; the soundness part holds of a returned
node; the empty dict yields the empty list. -/
theorem sp_c3_witness :
    (_recurse_locations (jobj [("node_type", Json.str "group"),
        ("nodes", jarr [jobj [("node_type", Json.str "location"), ("id", Json.num 1)],
          jobj [("name", Json.str "sub"),
            ("nodes", jarr [jobj [("node_type", Json.str "location"), ("id", Json.num 2)]])]])]) =
      claimedLocations (jobj [("node_type", Json.str "group"),
        ("nodes", jarr [jobj [("node_type", Json.str "location"), ("id", Json.num 1)],
          jobj [("name", Json.str "sub"),
            ("nodes", jarr [jobj [("node_type", Json.str "location"), ("id", Json.num 2)]])]])])) ∧
    (jobj [("node_type", Json.str "location"), ("id", Json.num 1)] ∈
        allNodes (jobj [("node_type", Json.str "group"),
          ("nodes", jarr [jobj [("node_type", Json.str "location"), ("id", Json.num 1)]])]) ∧
      isLocation (jobj [("node_type", Json.str "location"), ("id", Json.num 1)]) = true) ∧
    _recurse_locations (Json.obj .nil) = [] := by
  refine ⟨?_, ?_, ?_⟩
  · exact sp_c3.2.1 _ (by decide)
  · exact sp_c3.1 _ _ (by decide)
  · exact sp_c3.2.2 (Json.obj .nil) rfl rfl

/-- C10: a node whose `node_type` equals `location` is returned as the
one-element list containing it, its `nodes` children unexamined; a concrete
location node nested beneath another location node is a location node of the
tree yet appears neither in `_recurse_locations` nor in the result of
`managed_locations`. -/
theorem sp_c10 :
    (∀ j : Json, isLocation j = true → _recurse_locations j = [j]) ∧
    (isLocation (jobj [("node_type", Json.str "location"), ("id", Json.num 2)]) = true ∧
      jobj [("node_type", Json.str "location"), ("id", Json.num 2)] ∈
        allNodes (jobj [("node_type", Json.str "location"),
          ("nodes", jarr [jobj [("node_type", Json.str "location"), ("id", Json.num 2)]])]) ∧
      jobj [("node_type", Json.str "location"), ("id", Json.num 2)] ∉
        _recurse_locations (jobj [("node_type", Json.str "location"),
          ("nodes", jarr [jobj [("node_type", Json.str "location"), ("id", Json.num 2)]])]) ∧
      jobj [("node_type", Json.str "location"), ("id", Json.num 2)] ∉
        (managed_locations "b" "c" (jobj [("root_tier",
          jobj [("node_type", Json.str "location"),
            ("nodes", jarr [jobj [("node_type", Json.str "location"),
              ("id", Json.num 2)]])])])).2) := by
  constructor
  · intro j h
    rw [recurse_locations_eq, if_pos h]
  · refine ⟨?_, ?_, ?_, ?_⟩ <;> decide

/-- Witness for C10: a concrete location node with children is returned
alone, the children unexamined. -/
theorem sp_c10_witness :
    _recurse_locations (jobj [("node_type", Json.str "location"),
        ("nodes", jarr [jobj [("node_type", Json.str "location"), ("id", Json.num 2)]])]) =
      [jobj [("node_type", Json.str "location"),
        ("nodes", jarr [jobj [("node_type", Json.str "location"), ("id", Json.num 2)]])]] :=
  sp_c10.1 (jobj [("node_type", Json.str "location"),
    ("nodes", jarr [jobj [("node_type", Json.str "location"), ("id", Json.num 2)]])]) (by decide)

set_option maxRecDepth 1000000 in
/-- Counterexample to C8 as stated: for a concrete secret, path and params,
the generated URL carries the percent-encoding of the base64 signature bytes
themselves (`...signature=Bl19NUH1v9rO3L2MIwEjQcxdcI8%3D`), not the
percent-encoding of the Python bytes-literal text (which would read
`signature=b%27Bl19...%3D%27`): `urlencode` percent-encodes `bytes` values
directly instead of applying `str()` to them. -/
theorem sp_c8_counterexample :
    (_generate_url "secret" "/locations/123/" [("client", PyVal.str "myclient")]).1 =
      "https://publishing-api.singleplatform.com/locations/123/?client=myclient&signature=Bl19NUH1v9rO3L2MIwEjQcxdcI8%3D" ∧
    (_generate_url "secret" "/locations/123/" [("client", PyVal.str "myclient")]).1 ≠
      _HOST ++ "/locations/123/" ++ "?" ++ ("client=myclient&signature=" ++
        quote_plus (bytesRepr (_generate_signature "secret"
          "/locations/123/?client=myclient"))) := by
  constructor
  · decide
  · decide

set_option maxRecDepth 1000000 in
/-- C8 (amended): `_generate_signature` does return a bytes value despite its
declared `str` return type, and that bytes value is stored in the params
dict; but `urllib.parse.urlencode` percent-encodes bytes values directly
(CPython tests `isinstance(v, bytes)`), so the `signature` query parameter
is the percent-encoding of the base64 text itself (with the URL-unsafe
base64 characters `+`, `/`, `=` percent-escaped), not of the bytes-literal
representation `b...`. -/
theorem sp_c8 :
    (∀ (client_secret path : String) (params : List (String × PyVal)),
        List.lookup "signature" ((_generate_url client_secret path params).2) =
          some (PyVal.bytes (_generate_signature client_secret
            (path ++ "?" ++ urlencode params)))) ∧
    (∀ bs : List Nat,
        encodePair ("signature", PyVal.bytes bs) = "signature=" ++ quotePlusBytes bs) ∧
    (_generate_url "secret" "/locations/123/" [("client", PyVal.str "myclient")]).1 =
      _HOST ++ "/locations/123/" ++ "?" ++ ("client=myclient&signature=" ++
        quotePlusBytes (_generate_signature "secret" "/locations/123/?client=myclient")) := by
  refine ⟨fun s p ps => setItem_lookup _ _ _, fun bs => rfl, ?_⟩
  decide

set_option maxRecDepth 1000000 in
/-- C9: `_generate_url` updates the params dict it was given, storing the
signature under the key `signature` (modelled by returning the updated
dict the Python method mutates in place); a second call on the updated dict
signs a query string that already carries the first signature, and on a
concrete input the two calls return different URLs. -/
theorem sp_c9 :
    (∀ (client_secret path : String) (params : List (String × PyVal)),
        (_generate_url client_secret path params).2 =
          setItem params "signature"
            (PyVal.bytes (_generate_signature client_secret
              (path ++ "?" ++ urlencode params))) ∧
        List.lookup "signature" ((_generate_url client_secret path params).2) =
          some (PyVal.bytes (_generate_signature client_secret
            (path ++ "?" ++ urlencode params))) ∧
        (_generate_url client_secret path ((_generate_url client_secret path params).2)).2 =
          setItem ((_generate_url client_secret path params).2) "signature"
            (PyVal.bytes (_generate_signature client_secret
              (path ++ "?" ++ urlencode ((_generate_url client_secret path params).2))))) ∧
    (_generate_url "secret" "/locations/123/"
        ((_generate_url "secret" "/locations/123/" [("client", PyVal.str "myclient")]).2)).1 ≠
      (_generate_url "secret" "/locations/123/" [("client", PyVal.str "myclient")]).1 := by
  constructor
  · intro s p ps
    exact ⟨rfl, setItem_lookup _ _ _, rfl⟩
  · decide

end SinglePlatform
